import Mathlib

/-!
Verification of the Silabs BGAPI protocol codec (perilib-python-silabs-bgapi).

Shallow embedding of `SilabsBGAPIProtocol.py` and `SilabsBGAPIPacket.py`:
bytes are `List Nat` (each entry a byte value), Python strings are `List Char`,
the nested command/event dictionaries are association lists keyed by `Nat`
with the `"name"` string key carried as a structure field (the source skips
string keys when iterating numeric ids, which the split representation models
exactly).  Exceptions are modelled by an error result type.
-/

set_option maxRecDepth 100000

/-- Convert a Lean string literal to the `List Char` representation used for
Python strings throughout this development. -/
def str (s : String) : List Char := s.data

/-- One entry of an argument schema list, e.g. `{ "name": "result", "type": "uint16" }`. -/
structure ArgDef where
  name : List Char
  type : List Char
deriving DecidableEq, Repr

/-- A method definition dictionary from the registry.  The optional fields
model the presence/absence of each dictionary key (`response_required`,
`command_args`, `response_args`, `event_args`, and the `header_args` key that
`get_packet_from_buffer`/`get_packet_from_name_and_args` write into the
matched definition at runtime). -/
structure MethodDef where
  name : List Char
  response_required : Option (List Char) := none
  command_args : Option (List ArgDef) := none
  response_args : Option (List ArgDef) := none
  event_args : Option (List ArgDef) := none
  header_args : Option (List ArgDef) := none
deriving DecidableEq, Repr

/-- A group dictionary: its `"name"` entry plus the integer-keyed method
definitions, in insertion order. -/
structure GroupDef where
  name : List Char
  methods : List (Nat × MethodDef)
deriving DecidableEq, Repr

/-- A technology dictionary: its `"name"` entry plus the integer-keyed groups,
in insertion order. -/
structure TechDef where
  name : List Char
  groups : List (Nat × GroupDef)
deriving DecidableEq, Repr

/-- A registry side (`SilabsBGAPIProtocol.commands` or `.events`): technology
definitions keyed by technology id, in insertion order. -/
def Table : Type := List (Nat × TechDef)

instance : DecidableEq Table := by
  unfold Table
  infer_instance

/-- `SilabsBGAPIProtocol.header_args` (SilabsBGAPIProtocol.py lines 24-29). -/
def header_args : List ArgDef :=
  [⟨str "type", str "uint8"⟩, ⟨str "length", str "uint8"⟩,
   ⟨str "group", str "uint8"⟩, ⟨str "method", str "uint8"⟩]

/-- `SilabsBGAPIProtocol.commands` (SilabsBGAPIProtocol.py lines 34-150). -/
def commands : Table :=
  [ (0x0, { name := str "ble",
            groups :=
              [ (0x00, { name := str "system",
                         methods :=
                           [ (0x01, { name := str "hello",
                                      response_required := some (str "ble_rsp_system_hello"),
                                      command_args := some [],
                                      response_args := some [] }) ] }) ] }),
    (0x1, { name := str "wifi", groups := [] }),
    (0x4, { name := str "dumo",
            groups :=
              [ (0x01, { name := str "system",
                         methods :=
                           [ (0x00, { name := str "hello",
                                      response_required := some (str "dumo_rsp_system_hello"),
                                      command_args := some [],
                                      response_args := some [⟨str "result", str "uint16"⟩] }),
                             (0x08, { name := str "set_local_name",
                                      response_required := some (str "dumo_rsp_system_set_local_name"),
                                      command_args := some [⟨str "name", str "uint8a-l8v"⟩],
                                      response_args := some [⟨str "result", str "uint16"⟩] }) ] }),
                (0x02, { name := str "bt_gap",
                         methods :=
                           [ (0x03, { name := str "set_mode",
                                      response_required := some (str "dumo_rsp_bt_gap_set_mode"),
                                      command_args := some [⟨str "connectable", str "uint8"⟩,
                                                            ⟨str "discoverable", str "uint8"⟩,
                                                            ⟨str "limited", str "uint8"⟩],
                                      response_args := some [⟨str "result", str "uint16"⟩] }) ] }),
                (0x04, { name := str "bt_rfcomm",
                         methods :=
                           [ (0x01, { name := str "start_server",
                                      response_required := some (str "dumo_rsp_bt_rfcomm_start_server"),
                                      command_args := some [⟨str "sdp_id", str "uint8"⟩,
                                                            ⟨str "streaming_destination", str "uint8"⟩],
                                      response_args := some [⟨str "result", str "uint16"⟩] }) ] }),
                (0x0B, { name := str "endpoint",
                         methods :=
                           [ (0x00, { name := str "send",
                                      response_required := some (str "dumo_rsp_endpoint_send"),
                                      command_args := some [⟨str "endpoint", str "uint8"⟩,
                                                            ⟨str "data", str "uint8a-l8v"⟩],
                                      response_args := some [⟨str "result", str "uint16"⟩] }) ] }),
                (0x0C, { name := str "hardware",
                         methods :=
                           [ (0x08, { name := str "set_uart_configuration",
                                      response_required := some (str "dumo_rsp_hardware_set_uart_configuration"),
                                      command_args := some [⟨str "endpoint", str "uint8"⟩,
                                                            ⟨str "rate", str "uint32"⟩,
                                                            ⟨str "data_bits", str "uint8"⟩,
                                                            ⟨str "stop_bits", str "uint8"⟩,
                                                            ⟨str "parity", str "uint8"⟩,
                                                            ⟨str "flow_ctrl", str "uint8"⟩],
                                      response_args := some [⟨str "result", str "uint16"⟩] }) ] }),
                (0x0F, { name := str "sm",
                         methods :=
                           [ (0x00, { name := str "set_bondable_mode",
                                      response_required := some (str "dumo_rsp_sm_set_bondable_mode"),
                                      command_args := some [⟨str "bondable", str "uint8"⟩],
                                      response_args := some [⟨str "result", str "uint16"⟩] }) ] }) ] }) ]

/-- `SilabsBGAPIProtocol.events` (SilabsBGAPIProtocol.py lines 152-285). -/
def events : Table :=
  [ (0x0, { name := str "ble", groups := [] }),
    (0x1, { name := str "wifi", groups := [] }),
    (0x4, { name := str "dumo",
            groups :=
              [ (0x01, { name := str "system",
                         methods :=
                           [ (0x00, { name := str "boot",
                                      event_args := some [⟨str "major", str "uint16"⟩,
                                                          ⟨str "minor", str "uint16"⟩,
                                                          ⟨str "patch", str "uint16"⟩,
                                                          ⟨str "build", str "uint16"⟩,
                                                          ⟨str "bootloader", str "uint16"⟩,
                                                          ⟨str "hw", str "uint16"⟩] }),
                             (0x01, { name := str "initialized",
                                      event_args := some [⟨str "address", str "macaddr"⟩] }),
                             (0x02, { name := str "recovery",
                                      event_args := some [⟨str "id1", str "uint32"⟩,
                                                          ⟨str "id2", str "uint32"⟩,
                                                          ⟨str "data", str "uint8a-l8v"⟩] }) ] }),
                (0x04, { name := str "bt_rfcomm",
                         methods :=
                           [ (0x01, { name := str "modem_status",
                                      event_args := some [⟨str "endpoint", str "uint8"⟩,
                                                          ⟨str "modem", str "uint8"⟩] }) ] }),
                (0x07, { name := str "bt_connection",
                         methods :=
                           [ (0x00, { name := str "opened",
                                      event_args := some [⟨str "address", str "macaddr"⟩,
                                                          ⟨str "master", str "uint8"⟩,
                                                          ⟨str "connection", str "uint8"⟩,
                                                          ⟨str "bonding", str "uint8"⟩] }),
                             (0x01, { name := str "closed",
                                      event_args := some [⟨str "reason", str "uint16"⟩,
                                                          ⟨str "endpoint", str "uint8"⟩] }),
                             (0x02, { name := str "parameters",
                                      event_args := some [⟨str "endpoint", str "uint8"⟩,
                                                          ⟨str "block_size", str "uint32"⟩,
                                                          ⟨str "msc", str "uint8"⟩,
                                                          ⟨str "address", str "macaddr"⟩,
                                                          ⟨str "direction", str "uint8"⟩,
                                                          ⟨str "powermode", str "uint8"⟩,
                                                          ⟨str "role", str "uint8"⟩,
                                                          ⟨str "encryption", str "uint8"⟩,
                                                          ⟨str "input_buffer", str "uint32"⟩,
                                                          ⟨str "port", str "uint8"⟩] }) ] }),
                (0x0B, { name := str "endpoint",
                         methods :=
                           [ (0x00, { name := str "syntax_error",
                                      event_args := some [⟨str "result", str "uint16"⟩,
                                                          ⟨str "endpoint", str "uint8"⟩] }),
                             (0x01, { name := str "data",
                                      event_args := some [⟨str "endpoint", str "uint8"⟩,
                                                          ⟨str "data", str "uint8a-l8v"⟩] }),
                             (0x02, { name := str "status",
                                      event_args := some [⟨str "endpoint", str "uint8"⟩,
                                                          ⟨str "type", str "uint32"⟩,
                                                          ⟨str "destination_endpoint", str "int8"⟩,
                                                          ⟨str "flags", str "uint8"⟩] }),
                             (0x03, { name := str "closing",
                                      event_args := some [⟨str "reason", str "uint16"⟩,
                                                          ⟨str "endpoint", str "uint8"⟩] }),
                             (0x04, { name := str "closed",
                                      event_args := some [⟨str "endpoint", str "uint8"⟩] }) ] }),
                (0x0F, { name := str "sm",
                         methods :=
                           [ (0x03, { name := str "bonded",
                                      event_args := some [⟨str "connection", str "uint8"⟩,
                                                          ⟨str "bonding", str "uint8"⟩] }) ] }) ] }) ]

/-- `perilib.ParseStatus` values used by `test_packet_complete`. -/
inductive ParseStatus where
  | idle
  | inProgress
  | complete
deriving DecidableEq, Repr

/-- The check `buffer != "\x00\x00\x00\x00"` in `test_packet_complete`
(SilabsBGAPIProtocol.py line 295).  `buffer` is a Python 3 `bytes` object
(it was just indexed by `struct.unpack` which requires a bytes-like object),
while the literal is a `str`; in Python 3 a `bytes` value never compares equal
to a `str`, so this inequality is true for every buffer. -/
def bufferNeZeroStr (_buffer : List Nat) : Bool := true

/-- `SilabsBGAPIProtocol.test_packet_complete` (SilabsBGAPIProtocol.py
lines 287-298).  `struct.unpack(">H", buffer[0:2])` reads the first two bytes
big-endian; the code then masks with `0x3FF` (despite its comment about an
11-bit field). -/
def test_packet_complete (buffer : List Nat) : ParseStatus :=
  match buffer with
  | b0 :: b1 :: _ :: _ :: _ =>
    let payload_length := (b0 * 256 + b1) &&& 0x3FF
    if buffer.length = payload_length + 4 then
      if bufferNeZeroStr buffer then ParseStatus.complete else ParseStatus.idle
    else ParseStatus.inProgress
  | _ => ParseStatus.inProgress

/-- The packet metadata dictionary attached to every constructed packet. -/
structure PacketMetadata where
  message_type : Nat
  technology_type : Nat
  group_id : Nat
  method_id : Nat
deriving DecidableEq, Repr

/-- `struct.pack("4B", a, b, c, d)`: packs four unsigned bytes, raising
`struct.error` (modelled as `none`) when a value does not fit in one byte. -/
def pack4B (a b c d : Nat) : Option (List Nat) :=
  if a ≤ 255 ∧ b ≤ 255 ∧ c ≤ 255 ∧ d ≤ 255 then some [a, b, c, d] else none

/-- `SilabsBGAPIPacket.prepare_buffer_after_building` (SilabsBGAPIPacket.py
lines 20-32): the buffer at entry holds the serialized payload; the 4-byte
header is packed from the metadata and the payload length and prepended. -/
def prepare_buffer_after_building (md : PacketMetadata) (payload : List Nat) :
    Option (List Nat) :=
  (pack4B ((md.message_type <<< 7) ||| (md.technology_type <<< 3) ||| (payload.length >>> 8))
      (payload.length &&& 0xFF) md.group_id md.method_id).map (· ++ payload)

/-- The header-field extraction of `get_packet_from_buffer`
(SilabsBGAPIProtocol.py lines 302-305): given the four header bytes, return
`(message_type, technology_type, payload_length, group_id, method_id)`.
Note the source adds the low 3 bits of byte0 to `payload_length` without
shifting them left by 8. -/
def decode_header (b0 b1 b2 b3 : Nat) : Nat × Nat × Nat × Nat × Nat :=
  ((b0 &&& 0x80) >>> 7, (b0 &&& 0x78) >>> 3, b1 + (b0 &&& 0x07), b2, b3)

/-- A decoded or supplied argument value: unsigned integers, the signed
`int8`, or raw byte strings (`macaddr`, `uint8a-l8v`). -/
inductive FieldValue where
  | nat (n : Nat)
  | int (i : Int)
  | bytes (bs : List Nat)
deriving DecidableEq, Repr

/-- The six argument type tags of the protocol, plus a marker for unknown
tags (§4.1, `UnknownTypeTag`). -/
inductive TypeTag where
  | uint8
  | uint16
  | uint32
  | int8
  | macaddr
  | l8v
  | unknown
deriving DecidableEq, Repr

/-- Parse a type-tag string: `uint8`, `uint16`, `uint32`, `int8`, `macaddr`
and `uint8a-l8v` are the tags the registry uses. -/
def typeTagOf (tag : List Char) : TypeTag :=
  if tag = str "uint8" then .uint8
  else if tag = str "uint16" then .uint16
  else if tag = str "uint32" then .uint32
  else if tag = str "int8" then .int8
  else if tag = str "macaddr" then .macaddr
  else if tag = str "uint8a-l8v" then .l8v
  else .unknown

/-- Modelled from the spec: validity of a value for a type tag (§4.1 Type
Codec).  The argument serializer lives in the perilib core `StreamPacket`
class, which is not among this repository's sources; the spec fixes the
widths: unsigned integers within their width, `int8` two's complement in
[-128, 128), `macaddr` exactly 6 bytes, `uint8a-l8v` at most 255 bytes. -/
def validValue (tag : List Char) (v : FieldValue) : Bool :=
  match typeTagOf tag, v with
  | .uint8, .nat n => decide (n < 256)
  | .uint16, .nat n => decide (n < 65536)
  | .uint32, .nat n => decide (n < 4294967296)
  | .int8, .int i => decide (-128 ≤ i ∧ i < 128)
  | .macaddr, .bytes bs => decide (bs.length = 6) && bs.all (fun b => decide (b < 256))
  | .l8v, .bytes bs => decide (bs.length ≤ 255) && bs.all (fun b => decide (b < 256))
  | _, _ => false

/-- Modelled from the spec: serialize one argument value (§4.1).  Multi-byte
integers are little-endian; `int8` is two's complement; `macaddr` is 6 raw
bytes; `uint8a-l8v` is a length byte followed by the data. -/
def encodeValue (tag : List Char) (v : FieldValue) : List Nat :=
  match typeTagOf tag, v with
  | .uint8, .nat n => [n]
  | .uint16, .nat n => [n % 256, n / 256]
  | .uint32, .nat n => [n % 256, n / 256 % 256, n / 65536 % 256, n / 16777216]
  | .int8, .int i => [(i % 256).toNat]
  | .macaddr, .bytes bs => bs
  | .l8v, .bytes bs => bs.length :: bs
  | _, _ => []

/-- Modelled from the spec: decode one argument value from the front of a
byte list, returning the value and the remaining bytes, or `none` when the
bytes are shorter than the field requires (§4.1, `TruncatedArgument`). -/
def decodeValue (tag : List Char) (bytes : List Nat) : Option (FieldValue × List Nat) :=
  match typeTagOf tag, bytes with
  | .uint8, b :: rest => some (.nat b, rest)
  | .uint16, b0 :: b1 :: rest => some (.nat (b0 + 256 * b1), rest)
  | .uint32, b0 :: b1 :: b2 :: b3 :: rest =>
    some (.nat (b0 + 256 * b1 + 65536 * b2 + 16777216 * b3), rest)
  | .int8, b :: rest => some (.int (if b < 128 then (b : Int) else (b : Int) - 256), rest)
  | .macaddr, bytes =>
    if bytes.length < 6 then none else some (.bytes (bytes.take 6), bytes.drop 6)
  | .l8v, l :: rest =>
    if rest.length < l then none else some (.bytes (rest.take l), rest.drop l)
  | _, _ => none

/-- Modelled from the spec: a keyword-argument assignment is valid for a
schema when it lists exactly the schema's argument names in schema order with
values valid for the declared types (§4.5, `ArgumentMismatch` otherwise). -/
def validArgs : List ArgDef → List (List Char × FieldValue) → Bool
  | [], [] => true
  | a :: as, (k, v) :: kvs => decide (k = a.name) && validValue a.type v && validArgs as kvs
  | _, _ => false

/-- Modelled from the spec: serialize a full argument list in schema order
(§4.1: "encoding concatenates each field's encoded bytes in schema order"). -/
def encodePayload : List ArgDef → List (List Char × FieldValue) → List Nat
  | a :: as, (_, v) :: kvs => encodeValue a.type v ++ encodePayload as kvs
  | _, _ => []

/-- Modelled from the spec: decode a payload field by field in schema order,
returning the named fields and the bytes left over (§4.1: "decoding proceeds
strictly in schema order, each field consuming exactly its declared width"). -/
def decodePayloadAux : List ArgDef → List Nat → Option (List (List Char × FieldValue) × List Nat)
  | [], bytes => some ([], bytes)
  | a :: as, bytes =>
    match decodeValue a.type bytes with
    | none => none
    | some (v, rest) =>
      match decodePayloadAux as rest with
      | none => none
      | some (fs, rem) => some ((a.name, v) :: fs, rem)

/-- Modelled from the spec: the decoded field mapping of a payload. -/
def decodePayload (ctx : List ArgDef) (bytes : List Nat) :
    Option (List (List Char × FieldValue)) :=
  (decodePayloadAux ctx bytes).map (·.1)

/-- A constructed `SilabsBGAPIPacket`: type index (`TYPE_COMMAND = 0`,
`TYPE_RESPONSE = 1`, `TYPE_EVENT = 2`), name, metadata, raw buffer and the
structured fields (the kwargs when building, the parsed payload when
decoding). -/
structure Packet where
  ptype : Nat
  name : List Char
  metadata : PacketMetadata
  buffer : List Nat
  fields : List (List Char × FieldValue)
deriving DecidableEq, Repr

/-- Errors: each constructor models one exception the Python code can raise
(`struct.error`, the two `PerilibProtocolException` messages of
`get_packet_from_buffer`/`get_packet_from_name_and_args`) or a failure of the
spec-modelled argument codec. -/
inductive Err where
  | structError
  | unknownPacketDefinition (ptype tt gid mid : Nat)
  | invalidPacketName (name : List Char)
  | unknownPacketName (name : List Char)
  | missingArgContext
  | truncatedArgument
  | argumentMismatch
  | packError
deriving DecidableEq, Repr

/-- Result of a packet construction: a packet or a raised exception. -/
inductive Res where
  | ok (p : Packet)
  | err (e : Err)
deriving DecidableEq, Repr

/-- The packet (or error) a call produced, along with the class-level
`commands` and `events` tables after the call (the source mutates the matched
definition in place; here the updated tables are returned). -/
structure CallResult where
  commands : Table
  events : Table
  result : Res
deriving DecidableEq

/-- Dictionary lookup at an integer key (first match, insertion order). -/
def dictGet {α : Type} : List (Nat × α) → Nat → Option α
  | [], _ => none
  | (k, v) :: rest, key => if k = key then some v else dictGet rest key

/-- The chained lookup `table[technology_type][group_id][method_id]`
(SilabsBGAPIProtocol.py lines 315, 324): `none` models the `KeyError` when
any level is absent. -/
def lookup3 (t : Table) (tt gid mid : Nat) : Option (TechDef × GroupDef × MethodDef) :=
  match dictGet t tt with
  | none => none
  | some tech =>
    match dictGet tech.groups gid with
    | none => none
    | some g =>
      match dictGet g.methods mid with
      | none => none
      | some d => some (tech, g, d)

/-- Apply `f` to the method definition stored at `(tt, gid, mid)`, leaving
every other entry unchanged: the in-place dictionary write
`packet_definition[...] = ...` seen from the enclosing tables. -/
def updTable (t : Table) (tt gid mid : Nat) (f : MethodDef → MethodDef) : Table :=
  t.map fun e =>
    if e.1 = tt then
      (e.1, { e.2 with groups := e.2.groups.map fun ge =>
        if ge.1 = gid then
          (ge.1, { ge.2 with methods := ge.2.methods.map fun me =>
            if me.1 = mid then (me.1, f me.2) else me })
        else ge })
    else e

/-- The write `packet_definition["header_args"] = SilabsBGAPIProtocol.header_args`
(SilabsBGAPIProtocol.py lines 335 and 380). -/
def setHA (d : MethodDef) : MethodDef := { d with header_args := some header_args }

/-- `SilabsBGAPIPacket.TYPE_ARG_CONTEXT` selection: the argument schema the
packet type uses (`command_args`, `response_args` or `event_args`); `none`
models the `KeyError` when the definition lacks that key. -/
def argContext (pt : Nat) (d : MethodDef) : Option (List ArgDef) :=
  if pt = 0 then d.command_args
  else if pt = 1 then d.response_args
  else if pt = 2 then d.event_args
  else none

/-- The packet type chosen by `get_packet_from_buffer` for a decoded
message-type bit (lines 307-323): commands for TX, responses for RX, events
for message_type 1. -/
def decodedPacketType (mt : Nat) (is_tx : Bool) : Nat :=
  if mt = 0 then (if is_tx then 0 else 1) else 2

/-- Modelled from the spec: constructing a `SilabsBGAPIPacket` from a raw
buffer parses the bytes after the 4-byte header field by field against the
argument schema (§4.5 `decode_buffer`); this parsing is done by the perilib
core `StreamPacket` class, which is not among this repository's sources. -/
def parsePacket (pt : Nat) (pname : List Char) (d : MethodDef) (buffer : List Nat)
    (md : PacketMetadata) : Res :=
  match argContext pt d with
  | none => .err .missingArgContext
  | some ctx =>
    match decodePayload ctx (buffer.drop 4) with
    | none => .err .truncatedArgument
    | some fs => .ok ⟨pt, pname, md, buffer, fs⟩

/-- Modelled from the spec: constructing a `SilabsBGAPIPacket` from keyword
arguments validates them against the schema, serializes them in schema order
and prepends the header via `prepare_buffer_after_building` (§4.5
`encode_by_name`); the serialization is done by the perilib core
`StreamPacket` class, which is not among this repository's sources. -/
def buildPacket (pt : Nat) (pname : List Char) (d : MethodDef)
    (kwargs : List (List Char × FieldValue)) (md : PacketMetadata) : Res :=
  match argContext pt d with
  | none => .err .missingArgContext
  | some ctx =>
    if validArgs ctx kwargs then
      match prepare_buffer_after_building md (encodePayload ctx kwargs) with
      | none => .err .packError
      | some buf => .ok ⟨pt, pname, md, buf, kwargs⟩
    else .err .argumentMismatch

/-- `SilabsBGAPIProtocol.get_packet_from_buffer` (SilabsBGAPIProtocol.py
lines 300-345).  The first four bytes are unpacked (`struct.error` if the
buffer is shorter); byte0 is split into message type, technology type and the
unshifted high length bits; the matching side of the registry is searched and
the packet name is reassembled from the stored names. -/
def get_packet_from_buffer (c e : Table) (buffer : List Nat) (is_tx : Bool) : CallResult :=
  match buffer with
  | b0 :: _b1 :: b2 :: b3 :: _ =>
    -- message_type = (type_data & 0x80) >> 7; technology_type = (type_data & 0x78) >> 3;
    -- payload_length += type_data & 0x07 (computed but unused below, as in the source)
    if (b0 &&& 0x80) >>> 7 = 0 then
      match lookup3 c ((b0 &&& 0x78) >>> 3) b2 b3 with
      | none =>
        ⟨c, e, .err (.unknownPacketDefinition (decodedPacketType 0 is_tx)
          ((b0 &&& 0x78) >>> 3) b2 b3)⟩
      | some (tech, g, d) =>
        ⟨updTable c ((b0 &&& 0x78) >>> 3) b2 b3 setHA, e,
          parsePacket (decodedPacketType 0 is_tx)
            (tech.name ++ '_' :: ((if is_tx then str "cmd" else str "rsp") ++ '_' ::
              (g.name ++ '_' :: d.name)))
            (setHA d) buffer ⟨0, (b0 &&& 0x78) >>> 3, b2, b3⟩⟩
    else
      match lookup3 e ((b0 &&& 0x78) >>> 3) b2 b3 with
      | none =>
        ⟨c, e, .err (.unknownPacketDefinition 2 ((b0 &&& 0x78) >>> 3) b2 b3)⟩
      | some (tech, g, d) =>
        ⟨c, updTable e ((b0 &&& 0x78) >>> 3) b2 b3 setHA,
          parsePacket 2
            (tech.name ++ '_' :: (str "evt" ++ '_' :: (g.name ++ '_' :: d.name)))
            (setHA d) buffer ⟨1, (b0 &&& 0x78) >>> 3, b2, b3⟩⟩
  | _ => ⟨c, e, .err .structError⟩

/-- The first occurrence of `sep` in `s`: the characters before it and the
characters after it, or `none` when `sep` does not occur. -/
def splitFirst (sep : Char) : List Char → Option (List Char × List Char)
  | [] => none
  | c :: rest =>
    if c = sep then some ([], rest)
    else
      match splitFirst sep rest with
      | none => none
      | some (pre, post) => some (c :: pre, post)

/-- Python's `s.split(sep, maxsplit=n)`: split on at most `n` occurrences of
`sep`, the remainder staying whole in the last part. -/
def pySplit (sep : Char) : Nat → List Char → List (List Char)
  | 0, s => [s]
  | n + 1, s =>
    match splitFirst sep s with
    | none => [s]
    | some (pre, post) => pre :: pySplit sep n post

/-- The method-matching loop of `get_packet_from_name_and_args`
(SilabsBGAPIProtocol.py lines 375-378): first method whose `"name"` equals
the method name (string keys of the dictionary are skipped; here the numeric
keys are already separate). -/
def searchMethods (methods : List (Nat × MethodDef)) (mname : List Char) :
    Option (Nat × MethodDef) :=
  match methods with
  | [] => none
  | (mid, d) :: rest => if d.name = mname then some (mid, d) else searchMethods rest mname

/-- The group loop (lines 370-378): a group is tried when its `"name"` equals
`short_name[:len(name)]`; the method name is `short_name[len(name)+1:]`.
When the methods of a matching group do not contain the method name the loop
continues with the next group. -/
def searchGroups (groups : List (Nat × GroupDef)) (short : List Char) :
    Option (Nat × Nat × GroupDef × MethodDef) :=
  match groups with
  | [] => none
  | (gid, g) :: rest =>
    if g.name = short.take g.name.length then
      match searchMethods g.methods (short.drop (g.name.length + 1)) with
      | some (mid, d) => some (gid, mid, g, d)
      | none => searchGroups rest short
    else searchGroups rest short

/-- The technology loop (lines 368-369): technologies whose `"name"` equals
the first name component are searched; on no match within one, the loop
continues. -/
def searchTechs (table : Table) (techStr short : List Char) :
    Option (Nat × Nat × Nat × MethodDef) :=
  match table with
  | [] => none
  | (tt, tech) :: rest =>
    if tech.name = techStr then
      match searchGroups tech.groups short with
      | some (gid, mid, _, d) => some (tt, gid, mid, d)
      | none => searchTechs rest techStr short
    else searchTechs rest techStr short

/-- The name-resolution portion of `get_packet_from_name_and_args`
(SilabsBGAPIProtocol.py lines 347-393): split the name on the first two
underscores, choose the table and packet type from the kind token (`evt` vs
everything else, `rsp` only refining the packet type), and run the search
loops.  Returns `(packet_type, message_type, technology_type, group_id,
method_id, definition)`. -/
def resolveName (c e : Table) (name : List Char) :
    Except Err (Nat × Nat × Nat × Nat × Nat × MethodDef) :=
  match pySplit '_' 2 name with
  | [_techStr, kindStr, short] =>
    if kindStr = str "evt" then
      match searchTechs e _techStr short with
      | some (tt, gid, mid, d) => .ok (2, 1, tt, gid, mid, d)
      | none => .error (.unknownPacketName name)
    else
      match searchTechs c _techStr short with
      | some (tt, gid, mid, d) =>
        .ok (if kindStr = str "rsp" then 1 else 0, 0, tt, gid, mid, d)
      | none => .error (.unknownPacketName name)
  | _ => .error (.invalidPacketName name)

/-- `SilabsBGAPIProtocol.get_packet_from_name_and_args` (SilabsBGAPIProtocol.py
lines 347-393): resolve the name, stash `header_args` into the matched
definition, and build the packet from the keyword arguments. -/
def get_packet_from_name_and_args (c e : Table) (name : List Char)
    (kwargs : List (List Char × FieldValue)) : CallResult :=
  match resolveName c e name with
  | .error er => ⟨c, e, .err er⟩
  | .ok (pt, mt, tt, gid, mid, d) =>
    if mt = 0 then
      ⟨updTable c tt gid mid setHA, e,
        buildPacket pt name (setHA d) kwargs ⟨mt, tt, gid, mid⟩⟩
    else
      ⟨c, updTable e tt gid mid setHA,
        buildPacket pt name (setHA d) kwargs ⟨mt, tt, gid, mid⟩⟩

/-- The largest number of bytes a valid value of a tag can serialize to. -/
def maxWidth (tag : List Char) : Nat :=
  match typeTagOf tag with
  | .uint8 => 1
  | .uint16 => 2
  | .uint32 => 4
  | .int8 => 1
  | .macaddr => 6
  | .l8v => 256
  | .unknown => 0

/-- The largest payload a schema can serialize to. -/
def maxLen : List ArgDef → Nat
  | [] => 0
  | a :: as => maxWidth a.type + maxLen as

/-- All packet names derivable from the registry, paired with the transmit
direction that re-decodes the produced buffer as the same kind: commands are
decoded as TX, responses and events as RX. -/
def allPacketNames : List (List Char × Bool) :=
  [ (str "ble_cmd_system_hello", true),
    (str "dumo_cmd_system_hello", true),
    (str "dumo_cmd_system_set_local_name", true),
    (str "dumo_cmd_bt_gap_set_mode", true),
    (str "dumo_cmd_bt_rfcomm_start_server", true),
    (str "dumo_cmd_endpoint_send", true),
    (str "dumo_cmd_hardware_set_uart_configuration", true),
    (str "dumo_cmd_sm_set_bondable_mode", true),
    (str "ble_rsp_system_hello", false),
    (str "dumo_rsp_system_hello", false),
    (str "dumo_rsp_system_set_local_name", false),
    (str "dumo_rsp_bt_gap_set_mode", false),
    (str "dumo_rsp_bt_rfcomm_start_server", false),
    (str "dumo_rsp_endpoint_send", false),
    (str "dumo_rsp_hardware_set_uart_configuration", false),
    (str "dumo_rsp_sm_set_bondable_mode", false),
    (str "dumo_evt_system_boot", false),
    (str "dumo_evt_system_initialized", false),
    (str "dumo_evt_system_recovery", false),
    (str "dumo_evt_bt_rfcomm_modem_status", false),
    (str "dumo_evt_bt_connection_opened", false),
    (str "dumo_evt_bt_connection_closed", false),
    (str "dumo_evt_bt_connection_parameters", false),
    (str "dumo_evt_endpoint_syntax_error", false),
    (str "dumo_evt_endpoint_data", false),
    (str "dumo_evt_endpoint_status", false),
    (str "dumo_evt_endpoint_closing", false),
    (str "dumo_evt_endpoint_closed", false),
    (str "dumo_evt_sm_bonded", false) ]

/-- The argument schema a packet name resolves to (empty on failure). -/
def ctxOfName (name : List Char) : List ArgDef :=
  match resolveName commands events name with
  | .ok (pt, _, _, _, _, d) => (argContext pt (setHA d)).getD []
  | .error _ => []

/-- Whole-pipeline roundtrip check: encode the name with the given keyword
arguments against the class tables, then decode the produced raw buffer (with
the tables as the encoding call left them) in the given direction, and compare
the decoded packet's name and fields with the inputs. -/
def roundtripOK (name : List Char) (is_tx : Bool)
    (kwargs : List (List Char × FieldValue)) : Bool :=
  match get_packet_from_name_and_args commands events name kwargs with
  | ⟨c1, e1, .ok p⟩ =>
    match (get_packet_from_buffer c1 e1 p.buffer is_tx).result with
    | .ok q => decide (q.name = name) && decide (q.fields = kwargs)
    | .err _ => false
  | _ => false

/-- A method definition with its runtime `header_args` entry removed. -/
def eraseHA_MD (d : MethodDef) : MethodDef := { d with header_args := none }

/-- A group with all runtime `header_args` entries removed. -/
def eraseHA_G (g : GroupDef) : GroupDef :=
  { g with methods := g.methods.map fun me => (me.1, eraseHA_MD me.2) }

/-- A technology with all runtime `header_args` entries removed. -/
def eraseHA_T (t : TechDef) : TechDef :=
  { t with groups := t.groups.map fun ge => (ge.1, eraseHA_G ge.2) }

/-- A table with all runtime `header_args` entries removed. -/
def eraseHA (t : Table) : Table := t.map fun e => (e.1, eraseHA_T e.2)

/-- A definition equal to the `ble`/`system`/`hello` method definition of the
commands table, for stating concrete resolution results. -/
def bleSystemHelloDef : MethodDef :=
  { name := str "hello",
    response_required := some (str "ble_rsp_system_hello"),
    command_args := some [],
    response_args := some [] }

/-- Written from the amended claim: the method search accepts the first
method whose name equals the text after the skipped character. -/
def specFindMethod (ms : List (Nat × MethodDef)) (mname : List Char) :
    Option (Nat × MethodDef) :=
  ms.findSome? fun me => if me.2.name = mname then some me else none

/-- Written from the amended claim: a group is accepted when its name is a
prefix of the remainder (`short.take`), the character right after the prefix
is skipped without inspection, and the text after it matches a method name
exactly; groups whose methods do not match are passed over. -/
def specFindGroup (gs : List (Nat × GroupDef)) (short : List Char) :
    Option (Nat × Nat × GroupDef × MethodDef) :=
  gs.findSome? fun ge =>
    if ge.2.name = short.take ge.2.name.length then
      (specFindMethod ge.2.methods (short.drop (ge.2.name.length + 1))).map
        (fun md => (ge.1, md.1, ge.2, md.2))
    else none

/-- Written from the amended claim: the first technology whose name equals
the first component is searched; technologies with no matching group/method
are passed over. -/
def specFindTech (table : Table) (techStr short : List Char) :
    Option (Nat × Nat × Nat × MethodDef) :=
  table.findSome? fun e =>
    if e.2.name = techStr then
      (specFindGroup e.2.groups short).map (fun r => (e.1, r.1, r.2.1, r.2.2.2))
    else none

/-- C2: the claim states that classifying the four-zero-byte buffer returns
`Idle`, not `Complete`.  The code's zero-guard compares a `bytes` buffer with
a `str` literal, which is never equal in Python 3, so the guard is dead and
the code actually returns `Complete` on `b"\x00\x00\x00\x00"`. -/
theorem C2_zero_buffer_is_complete :
    test_packet_complete [0, 0, 0, 0] = ParseStatus.complete := by
  decide

/-- C3: the claim states the detector decodes an 11-bit length (low 3 bits of
byte0 as high bits), under which `b"\x04\x00\x00\x00"` declares payload length
1024 and must be `InProgress`.  The code masks with `0x3FF`, keeping only the
low 2 bits of byte0, computes payload length 0, and returns `Complete`. -/
theorem C3_ten_bit_mask_buffer_complete :
    test_packet_complete [0x04, 0, 0, 0] = ParseStatus.complete := by
  decide

/-- Bit-level inverse facts about the packed header byte0, for fields in
range: the message-type bit and the technology field are always recovered,
and the packed byte fits in one byte. -/
theorem header_byte0_bits :
    ∀ mt < 2, ∀ tt < 16, ∀ k < 8,
      ((((mt <<< 7) ||| (tt <<< 3)) ||| k) &&& 0x80) >>> 7 = mt ∧
      ((((mt <<< 7) ||| (tt <<< 3)) ||| k) &&& 0x78) >>> 3 = tt ∧
      (((mt <<< 7) ||| (tt <<< 3)) ||| k) &&& 0x07 = k ∧
      ((mt <<< 7) ||| (tt <<< 3)) ||| k ≤ 255 := by
  decide

/-- C4 counterexample: at payload length 256 (with message_type 0, technology
0, group 0, method 1) the encoder produces header bytes `01 00 00 01`, and the
decoder — which adds the high length bits without shifting them — recovers
payload length 1, not 256.  The encoder and decoder are not exact inverses on
the claimed range. -/
theorem C4_not_inverse_at_256 :
    prepare_buffer_after_building ⟨0, 0, 0, 1⟩ (List.replicate 256 0)
        = some ([1, 0, 0, 1] ++ List.replicate 256 0) ∧
      decode_header 1 0 0 1 ≠ (0, 0, 256, 0, 1) := by
  constructor
  · unfold prepare_buffer_after_building pack4B
    dsimp only
    rw [show (List.replicate 256 (0 : Nat)).length = 256 from by simp]
    rw [if_pos (by decide :
      ((0 : Nat) <<< 7 ||| 0 <<< 3 ||| 256 >>> 8) ≤ 255 ∧ (256 : Nat) &&& 255 ≤ 255 ∧
        (0 : Nat) ≤ 255 ∧ (1 : Nat) ≤ 255)]
    rw [show ((0 : Nat) <<< 7 ||| 0 <<< 3 ||| 256 >>> 8) = 1 from by decide,
      show ((256 : Nat) &&& 255) = 0 from by decide]
    rfl
  · decide

/-- C4 as amended: for message_type ≤ 1, technology ≤ 15, group and method in
byte range and payload length ≤ 2047, encoding succeeds and decoding the
produced header recovers message_type, technology, group and method exactly,
while the decoded payload length is `plen % 256 + plen / 256` (the decoder
adds the three high bits unshifted); the round trip is exact precisely for
payload lengths below 256. -/
theorem C4_header_roundtrip (mt tt gid mid : Nat) (payload : List Nat)
    (hmt : mt ≤ 1) (htt : tt ≤ 15) (hgid : gid ≤ 255) (hmid : mid ≤ 255)
    (hlen : payload.length ≤ 2047) :
    ∃ rest,
      prepare_buffer_after_building ⟨mt, tt, gid, mid⟩ payload =
        some (((mt <<< 7) ||| (tt <<< 3) ||| (payload.length >>> 8))
          :: (payload.length &&& 0xFF) :: gid :: mid :: rest) ∧
      decode_header ((mt <<< 7) ||| (tt <<< 3) ||| (payload.length >>> 8))
          (payload.length &&& 0xFF) gid mid
        = (mt, tt, payload.length % 256 + payload.length / 256, gid, mid) ∧
      (payload.length ≤ 255 →
        decode_header ((mt <<< 7) ||| (tt <<< 3) ||| (payload.length >>> 8))
            (payload.length &&& 0xFF) gid mid
          = (mt, tt, payload.length, gid, mid)) := by
  have hk : payload.length >>> 8 < 8 := by
    rw [Nat.shiftRight_eq_div_pow]
    omega
  obtain ⟨h80, h78, h07, hle⟩ :=
    header_byte0_bits mt (by omega) tt (by omega) (payload.length >>> 8) hk
  have hand : payload.length &&& 255 = payload.length % 256 := by
    have h := Nat.and_pow_two_sub_one_eq_mod payload.length 8
    norm_num at h
    exact h
  have hshift : payload.length >>> 8 = payload.length / 256 := by
    have h := Nat.shiftRight_eq_div_pow payload.length 8
    norm_num at h
    exact h
  refine ⟨payload, ?_, ?_, ?_⟩
  · unfold prepare_buffer_after_building pack4B
    dsimp only
    rw [if_pos ⟨hle, Nat.le_of_lt_succ (Nat.lt_succ_of_le (Nat.and_le_right ..)), hgid, hmid⟩]
    rfl
  · unfold decode_header
    rw [h80, h78, h07, hand, hshift]
  · intro h255
    unfold decode_header
    rw [h80, h78, h07, hand, hshift]
    have : payload.length % 256 + payload.length / 256 = payload.length := by omega
    rw [this]

/-- Witness for `C4_header_roundtrip` at message_type 0, technology 4,
group 2, method 3 and a 5-byte payload. -/
theorem C4_header_roundtrip_witness :
    (0 : Nat) ≤ 1 ∧ (4 : Nat) ≤ 15 ∧ (2 : Nat) ≤ 255 ∧ (3 : Nat) ≤ 255 ∧
      ([9, 9, 9, 9, 9] : List Nat).length ≤ 2047 ∧
      ∃ rest,
        prepare_buffer_after_building ⟨0, 4, 2, 3⟩ [9, 9, 9, 9, 9] =
          some (((0 <<< 7) ||| (4 <<< 3) ||| (([9, 9, 9, 9, 9] : List Nat).length >>> 8))
            :: (([9, 9, 9, 9, 9] : List Nat).length &&& 0xFF) :: 2 :: 3 :: rest) ∧
        decode_header ((0 <<< 7) ||| (4 <<< 3) ||| (([9, 9, 9, 9, 9] : List Nat).length >>> 8))
            (([9, 9, 9, 9, 9] : List Nat).length &&& 0xFF) 2 3
          = (0, 4, ([9, 9, 9, 9, 9] : List Nat).length % 256
              + ([9, 9, 9, 9, 9] : List Nat).length / 256, 2, 3) ∧
        (([9, 9, 9, 9, 9] : List Nat).length ≤ 255 →
          decode_header ((0 <<< 7) ||| (4 <<< 3) ||| (([9, 9, 9, 9, 9] : List Nat).length >>> 8))
              (([9, 9, 9, 9, 9] : List Nat).length &&& 0xFF) 2 3
            = (0, 4, ([9, 9, 9, 9, 9] : List Nat).length, 2, 3)) :=
  ⟨by decide, by decide, by decide, by decide, by decide,
    C4_header_roundtrip 0 4 2 3 [9, 9, 9, 9, 9]
      (by decide) (by decide) (by decide) (by decide) (by decide)⟩

/-- C5 counterexample: encoding a 2048-byte payload (message_type 0,
technology 0, group 0, method 0) does not fail: it produces a buffer whose
byte0 is 8, the overflowing high bit of the length landing in the bit
positions the decoder reads as the technology field. -/
theorem C5_no_payload_size_check :
    prepare_buffer_after_building ⟨0, 0, 0, 0⟩ (List.replicate 2048 0)
      = some ([8, 0, 0, 0] ++ List.replicate 2048 0) := by
  unfold prepare_buffer_after_building pack4B
  dsimp only
  rw [show (List.replicate 2048 (0 : Nat)).length = 2048 from by simp]
  rw [if_pos (by decide :
    ((0 : Nat) <<< 7 ||| 0 <<< 3 ||| 2048 >>> 8) ≤ 255 ∧ (2048 : Nat) &&& 255 ≤ 255 ∧
      (0 : Nat) ≤ 255 ∧ (0 : Nat) ≤ 255)]
  rw [show ((0 : Nat) <<< 7 ||| 0 <<< 3 ||| 2048 >>> 8) = 8 from by decide,
    show ((2048 : Nat) &&& 255) = 0 from by decide]
  rfl

/-- C5 as amended: `prepare_buffer_after_building` performs no
`PayloadTooLarge` check.  For every payload longer than 2047 bytes (up to
65535, beyond which `struct.pack` rejects byte0) and metadata fields in byte
range, it still produces a buffer: the 4-byte header followed by the payload,
with the high length bits ORed into byte0 next to the technology bits. -/
theorem C5_oversized_payload_still_packed (mt tt gid mid : Nat) (payload : List Nat)
    (hmt : mt ≤ 1) (htt : tt ≤ 15) (hgid : gid ≤ 255) (hmid : mid ≤ 255)
    (hbig : 2047 < payload.length) (hcap : payload.length ≤ 65535) :
    prepare_buffer_after_building ⟨mt, tt, gid, mid⟩ payload =
      some ([(mt <<< 7) ||| (tt <<< 3) ||| (payload.length >>> 8),
             payload.length &&& 0xFF, gid, mid] ++ payload) := by
  have hb0 : (mt <<< 7) ||| (tt <<< 3) ||| (payload.length >>> 8) ≤ 255 := by
    have h1 : mt <<< 7 < 2 ^ 8 := by
      rw [Nat.shiftLeft_eq]
      omega
    have h2 : tt <<< 3 < 2 ^ 8 := by
      rw [Nat.shiftLeft_eq]
      omega
    have h3 : payload.length >>> 8 < 2 ^ 8 := by
      rw [Nat.shiftRight_eq_div_pow]
      omega
    have := Nat.or_lt_two_pow (Nat.or_lt_two_pow h1 h2) h3
    omega
  have hb1 : payload.length &&& 0xFF ≤ 255 :=
    Nat.le_of_lt_succ (Nat.lt_succ_of_le (Nat.and_le_right ..))
  unfold prepare_buffer_after_building pack4B
  dsimp only
  rw [if_pos ⟨hb0, hb1, hgid, hmid⟩]
  rfl

/-- Witness for `C5_oversized_payload_still_packed` on a 2100-byte payload. -/
theorem C5_oversized_payload_witness :
    (1 : Nat) ≤ 1 ∧ (4 : Nat) ≤ 15 ∧ (7 : Nat) ≤ 255 ∧ (2 : Nat) ≤ 255 ∧
      2047 < (List.replicate 2100 (3 : Nat)).length ∧
      (List.replicate 2100 (3 : Nat)).length ≤ 65535 ∧
      prepare_buffer_after_building ⟨1, 4, 7, 2⟩ (List.replicate 2100 3) =
        some ([(1 <<< 7) ||| (4 <<< 3) ||| ((List.replicate 2100 (3 : Nat)).length >>> 8),
               (List.replicate 2100 (3 : Nat)).length &&& 0xFF, 7, 2]
          ++ List.replicate 2100 3) :=
  ⟨by decide, by decide, by decide, by decide,
    by simp, by simp,
    C5_oversized_payload_still_packed 1 4 7 2 (List.replicate 2100 3)
      (by decide) (by decide) (by decide) (by decide) (by simp) (by simp)⟩


/-- One-value roundtrip: decoding right after encoding a valid value yields
the value back and leaves the remaining bytes untouched. -/
theorem decodeValue_encodeValue (tag : List Char) (v : FieldValue) (rest : List Nat)
    (h : validValue tag v = true) :
    decodeValue tag (encodeValue tag v ++ rest) = some (v, rest) := by
  unfold validValue at h
  unfold encodeValue decodeValue
  cases htag : typeTagOf tag <;> rw [htag] at h <;> cases v <;>
    (try exact absurd h Bool.false_ne_true) <;>
    simp only [decide_eq_true_eq, Bool.and_eq_true] at h
  case uint8.nat n =>
    rfl
  case uint16.nat n =>
    simp only [List.cons_append, List.nil_append, Option.some.injEq, Prod.mk.injEq,
      FieldValue.nat.injEq, and_true]
    omega
  case uint32.nat n =>
    simp only [List.cons_append, List.nil_append, Option.some.injEq, Prod.mk.injEq,
      FieldValue.nat.injEq, and_true]
    omega
  case int8.int i =>
    simp only [List.cons_append, List.nil_append, Option.some.injEq, Prod.mk.injEq,
      FieldValue.int.injEq, and_true]
    split_ifs with hb <;> omega
  case macaddr.bytes bs =>
    obtain ⟨h6, _⟩ := h
    simp only
    rw [if_neg (by simp [h6]), List.take_left' h6, List.drop_left' h6]
  case l8v.bytes bs =>
    simp only [List.cons_append]
    rw [if_neg (by simp), List.take_left, List.drop_left]

/-- A valid value serializes to at most `maxWidth` bytes. -/
theorem encodeValue_length_le (tag : List Char) (v : FieldValue)
    (h : validValue tag v = true) :
    (encodeValue tag v).length ≤ maxWidth tag := by
  unfold validValue at h
  unfold encodeValue maxWidth
  cases htag : typeTagOf tag <;> rw [htag] at h <;> cases v <;>
    (try exact absurd h Bool.false_ne_true) <;>
    simp only [decide_eq_true_eq, Bool.and_eq_true] at h <;>
    simp only [List.length_cons, List.length_nil] <;> omega

/-- A valid assignment serializes to at most `maxLen` bytes. -/
theorem encodePayload_length_le (ctx : List ArgDef)
    (kvs : List (List Char × FieldValue)) (h : validArgs ctx kvs = true) :
    (encodePayload ctx kvs).length ≤ maxLen ctx := by
  induction ctx generalizing kvs with
  | nil =>
    cases kvs with
    | nil => simp [encodePayload, maxLen]
    | cons kv kvs => exact absurd h Bool.false_ne_true
  | cons a as ih =>
    cases kvs with
    | nil => exact absurd h Bool.false_ne_true
    | cons kv kvs =>
      obtain ⟨k, v⟩ := kv
      simp only [validArgs, Bool.and_eq_true, decide_eq_true_eq] at h
      obtain ⟨⟨hk, hv⟩, hrest⟩ := h
      simp only [encodePayload, maxLen, List.length_append]
      have h1 := encodeValue_length_le a.type v hv
      have h2 := ih kvs hrest
      omega

/-- Payload roundtrip: decoding resumes after the encoded bytes of each field
and recovers a valid assignment exactly. -/
theorem decodePayloadAux_encodePayload (ctx : List ArgDef)
    (kvs : List (List Char × FieldValue)) (rest : List Nat)
    (h : validArgs ctx kvs = true) :
    decodePayloadAux ctx (encodePayload ctx kvs ++ rest) = some (kvs, rest) := by
  induction ctx generalizing kvs rest with
  | nil =>
    cases kvs with
    | nil => simp [encodePayload, decodePayloadAux]
    | cons kv kvs => exact absurd h Bool.false_ne_true
  | cons a as ih =>
    cases kvs with
    | nil => exact absurd h Bool.false_ne_true
    | cons kv kvs =>
      obtain ⟨k, v⟩ := kv
      simp only [validArgs, Bool.and_eq_true, decide_eq_true_eq] at h
      obtain ⟨⟨hk, hv⟩, hrest⟩ := h
      simp only [encodePayload, List.append_assoc, decodePayloadAux]
      rw [decodeValue_encodeValue a.type v _ hv]
      dsimp only
      rw [ih kvs rest hrest]
      simp [hk]

/-- Dropping the 4-byte header from an explicit buffer. -/
theorem drop4_cons (a b c d : Nat) (l : List Nat) : (a :: b :: c :: d :: l).drop 4 = l := rfl

/-- Stashing `header_args` twice is the same as stashing it once. -/
theorem setHA_setHA (d : MethodDef) : setHA (setHA d) = setHA d := rfl

/-- Core roundtrip argument for command/response packets (message type 0):
when the name resolves into the command table, the matched ids are in byte
range, the schema's maximal payload fits the length field, and the decode-side
lookup on the updated table reassembles the same name, then every valid
argument assignment roundtrips. -/
theorem roundtripOK_of_mt0 (name : List Char) (is_tx : Bool) (pt tt gid mid : Nat)
    (d : MethodDef) (tech : TechDef) (g : GroupDef) (ctx : List ArgDef)
    (hres : resolveName commands events name = .ok (pt, 0, tt, gid, mid, d))
    (htt : tt < 16) (hgid : gid ≤ 255) (hmid : mid ≤ 255)
    (hpt : decodedPacketType 0 is_tx = pt)
    (hctx : argContext pt (setHA d) = some ctx)
    (hmax : maxLen ctx ≤ 2047)
    (hlook : lookup3 (updTable commands tt gid mid setHA) tt gid mid
      = some (tech, g, setHA d))
    (hname : tech.name ++ '_' :: ((if is_tx then str "cmd" else str "rsp") ++ '_' ::
      (g.name ++ '_' :: (setHA d).name)) = name)
    (kwargs : List (List Char × FieldValue)) (hv : validArgs ctx kwargs = true) :
    roundtripOK name is_tx kwargs = true := by
  have hplen : (encodePayload ctx kwargs).length ≤ 2047 :=
    le_trans (encodePayload_length_le ctx kwargs hv) hmax
  have hk : (encodePayload ctx kwargs).length >>> 8 < 8 := by
    rw [Nat.shiftRight_eq_div_pow]
    omega
  obtain ⟨h80, h78, h07, hb0le⟩ := header_byte0_bits 0 (by omega) tt htt _ hk
  have hprep : prepare_buffer_after_building ⟨0, tt, gid, mid⟩ (encodePayload ctx kwargs)
      = some (((0 <<< 7) ||| (tt <<< 3) ||| ((encodePayload ctx kwargs).length >>> 8))
        :: ((encodePayload ctx kwargs).length &&& 0xFF) :: gid :: mid
        :: encodePayload ctx kwargs) := by
    unfold prepare_buffer_after_building pack4B
    dsimp only
    rw [if_pos ⟨hb0le, Nat.le_of_lt_succ (Nat.lt_succ_of_le (Nat.and_le_right ..)), hgid, hmid⟩]
    rfl
  have hbuild : buildPacket pt name (setHA d) kwargs ⟨0, tt, gid, mid⟩ =
      .ok ⟨pt, name, ⟨0, tt, gid, mid⟩,
        ((0 <<< 7) ||| (tt <<< 3) ||| ((encodePayload ctx kwargs).length >>> 8))
          :: ((encodePayload ctx kwargs).length &&& 0xFF) :: gid :: mid
          :: encodePayload ctx kwargs, kwargs⟩ := by
    unfold buildPacket
    rw [hctx]
    dsimp only
    rw [if_pos hv, hprep]
  have henc : get_packet_from_name_and_args commands events name kwargs =
      ⟨updTable commands tt gid mid setHA, events,
        buildPacket pt name (setHA d) kwargs ⟨0, tt, gid, mid⟩⟩ := by
    unfold get_packet_from_name_and_args
    rw [hres]
    exact rfl
  have hdecp : decodePayloadAux ctx (encodePayload ctx kwargs) = some (kwargs, []) := by
    have h := decodePayloadAux_encodePayload ctx kwargs [] hv
    rwa [List.append_nil] at h
  have hparse : parsePacket (decodedPacketType 0 is_tx)
      (tech.name ++ '_' :: ((if is_tx then str "cmd" else str "rsp") ++ '_' ::
        (g.name ++ '_' :: (setHA d).name)))
      (setHA (setHA d))
      (((0 <<< 7) ||| (tt <<< 3) ||| ((encodePayload ctx kwargs).length >>> 8))
        :: ((encodePayload ctx kwargs).length &&& 0xFF) :: gid :: mid
        :: encodePayload ctx kwargs) ⟨0, tt, gid, mid⟩ =
      .ok ⟨pt,
        tech.name ++ '_' :: ((if is_tx then str "cmd" else str "rsp") ++ '_' ::
          (g.name ++ '_' :: (setHA d).name)),
        ⟨0, tt, gid, mid⟩,
        ((0 <<< 7) ||| (tt <<< 3) ||| ((encodePayload ctx kwargs).length >>> 8))
          :: ((encodePayload ctx kwargs).length &&& 0xFF) :: gid :: mid
          :: encodePayload ctx kwargs, kwargs⟩ := by
    unfold parsePacket
    rw [setHA_setHA, hpt, hctx]
    dsimp only
    rw [drop4_cons]
    unfold decodePayload
    rw [hdecp]
    rfl
  have hdec : get_packet_from_buffer (updTable commands tt gid mid setHA) events
      (((0 <<< 7) ||| (tt <<< 3) ||| ((encodePayload ctx kwargs).length >>> 8))
        :: ((encodePayload ctx kwargs).length &&& 0xFF) :: gid :: mid
        :: encodePayload ctx kwargs) is_tx =
      ⟨updTable (updTable commands tt gid mid setHA) tt gid mid setHA, events,
        parsePacket (decodedPacketType 0 is_tx)
          (tech.name ++ '_' :: ((if is_tx then str "cmd" else str "rsp") ++ '_' ::
            (g.name ++ '_' :: (setHA d).name)))
          (setHA (setHA d))
          (((0 <<< 7) ||| (tt <<< 3) ||| ((encodePayload ctx kwargs).length >>> 8))
            :: ((encodePayload ctx kwargs).length &&& 0xFF) :: gid :: mid
            :: encodePayload ctx kwargs) ⟨0, tt, gid, mid⟩⟩ := by
    simp only [get_packet_from_buffer]
    rw [h80, h78]
    rw [hlook]
    exact rfl
  unfold roundtripOK
  rw [henc, hbuild]
  dsimp only
  rw [hdec]
  dsimp only
  rw [hparse]
  dsimp only
  rw [hname]
  simp

/-- Core roundtrip argument for event packets (message type 1), analogous to
the command/response case but on the events side of the registry. -/
theorem roundtripOK_of_mt1 (name : List Char) (is_tx : Bool) (tt gid mid : Nat)
    (d : MethodDef) (tech : TechDef) (g : GroupDef) (ctx : List ArgDef)
    (hres : resolveName commands events name = .ok (2, 1, tt, gid, mid, d))
    (htt : tt < 16) (hgid : gid ≤ 255) (hmid : mid ≤ 255)
    (hctx : argContext 2 (setHA d) = some ctx)
    (hmax : maxLen ctx ≤ 2047)
    (hlook : lookup3 (updTable events tt gid mid setHA) tt gid mid
      = some (tech, g, setHA d))
    (hname : tech.name ++ '_' :: (str "evt" ++ '_' :: (g.name ++ '_' :: (setHA d).name))
      = name)
    (kwargs : List (List Char × FieldValue)) (hv : validArgs ctx kwargs = true) :
    roundtripOK name is_tx kwargs = true := by
  have hplen : (encodePayload ctx kwargs).length ≤ 2047 :=
    le_trans (encodePayload_length_le ctx kwargs hv) hmax
  have hk : (encodePayload ctx kwargs).length >>> 8 < 8 := by
    rw [Nat.shiftRight_eq_div_pow]
    omega
  obtain ⟨h80, h78, h07, hb0le⟩ := header_byte0_bits 1 (by omega) tt htt _ hk
  have hprep : prepare_buffer_after_building ⟨1, tt, gid, mid⟩ (encodePayload ctx kwargs)
      = some (((1 <<< 7) ||| (tt <<< 3) ||| ((encodePayload ctx kwargs).length >>> 8))
        :: ((encodePayload ctx kwargs).length &&& 0xFF) :: gid :: mid
        :: encodePayload ctx kwargs) := by
    unfold prepare_buffer_after_building pack4B
    dsimp only
    rw [if_pos ⟨hb0le, Nat.le_of_lt_succ (Nat.lt_succ_of_le (Nat.and_le_right ..)), hgid, hmid⟩]
    rfl
  have hbuild : buildPacket 2 name (setHA d) kwargs ⟨1, tt, gid, mid⟩ =
      .ok ⟨2, name, ⟨1, tt, gid, mid⟩,
        ((1 <<< 7) ||| (tt <<< 3) ||| ((encodePayload ctx kwargs).length >>> 8))
          :: ((encodePayload ctx kwargs).length &&& 0xFF) :: gid :: mid
          :: encodePayload ctx kwargs, kwargs⟩ := by
    unfold buildPacket
    rw [hctx]
    dsimp only
    rw [if_pos hv, hprep]
  have henc : get_packet_from_name_and_args commands events name kwargs =
      ⟨commands, updTable events tt gid mid setHA,
        buildPacket 2 name (setHA d) kwargs ⟨1, tt, gid, mid⟩⟩ := by
    unfold get_packet_from_name_and_args
    rw [hres]
    exact rfl
  have hdecp : decodePayloadAux ctx (encodePayload ctx kwargs) = some (kwargs, []) := by
    have h := decodePayloadAux_encodePayload ctx kwargs [] hv
    rwa [List.append_nil] at h
  have hparse : parsePacket 2
      (tech.name ++ '_' :: (str "evt" ++ '_' :: (g.name ++ '_' :: (setHA d).name)))
      (setHA (setHA d))
      (((1 <<< 7) ||| (tt <<< 3) ||| ((encodePayload ctx kwargs).length >>> 8))
        :: ((encodePayload ctx kwargs).length &&& 0xFF) :: gid :: mid
        :: encodePayload ctx kwargs) ⟨1, tt, gid, mid⟩ =
      .ok ⟨2,
        tech.name ++ '_' :: (str "evt" ++ '_' :: (g.name ++ '_' :: (setHA d).name)),
        ⟨1, tt, gid, mid⟩,
        ((1 <<< 7) ||| (tt <<< 3) ||| ((encodePayload ctx kwargs).length >>> 8))
          :: ((encodePayload ctx kwargs).length &&& 0xFF) :: gid :: mid
          :: encodePayload ctx kwargs, kwargs⟩ := by
    unfold parsePacket
    rw [setHA_setHA, hctx]
    dsimp only
    rw [drop4_cons]
    unfold decodePayload
    rw [hdecp]
    rfl
  have hdec : get_packet_from_buffer commands (updTable events tt gid mid setHA)
      (((1 <<< 7) ||| (tt <<< 3) ||| ((encodePayload ctx kwargs).length >>> 8))
        :: ((encodePayload ctx kwargs).length &&& 0xFF) :: gid :: mid
        :: encodePayload ctx kwargs) is_tx =
      ⟨commands, updTable (updTable events tt gid mid setHA) tt gid mid setHA,
        parsePacket 2
          (tech.name ++ '_' :: (str "evt" ++ '_' :: (g.name ++ '_' :: (setHA d).name)))
          (setHA (setHA d))
          (((1 <<< 7) ||| (tt <<< 3) ||| ((encodePayload ctx kwargs).length >>> 8))
            :: ((encodePayload ctx kwargs).length &&& 0xFF) :: gid :: mid
            :: encodePayload ctx kwargs) ⟨1, tt, gid, mid⟩⟩ := by
    simp only [get_packet_from_buffer]
    rw [h80, h78]
    rw [hlook]
    exact rfl
  unfold roundtripOK
  rw [henc, hbuild]
  dsimp only
  rw [hdec]
  dsimp only
  rw [hparse]
  dsimp only
  rw [hname]
  simp

/-- C1: for every method/event definition in the registry (every packet name
the registry generates) and every valid argument assignment, decoding the raw
buffer produced by encoding that name with those arguments — in the direction
matching the encoded kind — yields a packet with identical name and fields. -/
theorem C1_registry_roundtrip :
    ∀ pr ∈ allPacketNames, ∀ kwargs, validArgs (ctxOfName pr.1) kwargs = true →
      roundtripOK pr.1 pr.2 kwargs = true := by
  intro pr hpr kwargs hv
  fin_cases hpr <;>
  first
  | (apply roundtripOK_of_mt0
     case hres => rfl
     case hpt => rfl
     case hctx => rfl
     case hlook => rfl
     case hname => rfl
     case hv => exact hv
     all_goals decide)
  | (apply roundtripOK_of_mt1
     case hres => rfl
     case hctx => rfl
     case hlook => rfl
     case hname => rfl
     case hv => exact hv
     all_goals decide)

/-- Witness for `C1_registry_roundtrip`: the hello command with no arguments. -/
theorem C1_registry_roundtrip_witness :
    (str "ble_cmd_system_hello", true) ∈ allPacketNames ∧
      validArgs (ctxOfName (str "ble_cmd_system_hello")) [] = true ∧
      roundtripOK (str "ble_cmd_system_hello") true [] = true :=
  ⟨by decide, by decide,
    C1_registry_roundtrip (str "ble_cmd_system_hello", true) (by decide) [] (by decide)⟩

/-- C6: decoding a buffer whose header triple is absent (at any level) from
the registry side selected by the message-type bit raises the
UnknownPacketDefinition exception and leaves both tables untouched — no
packet is constructed. -/
theorem C6_unknown_triple (c e : Table) (b0 b1 b2 b3 : Nat) (rest : List Nat) (is_tx : Bool)
    (habs : lookup3 (if (b0 &&& 0x80) >>> 7 = 0 then c else e) ((b0 &&& 0x78) >>> 3) b2 b3
      = none) :
    get_packet_from_buffer c e (b0 :: b1 :: b2 :: b3 :: rest) is_tx =
      ⟨c, e, .err (.unknownPacketDefinition
        (if (b0 &&& 0x80) >>> 7 = 0 then decodedPacketType 0 is_tx else 2)
        ((b0 &&& 0x78) >>> 3) b2 b3)⟩ := by
  by_cases hmt : (b0 &&& 0x80) >>> 7 = 0
  · rw [if_pos hmt] at habs
    simp only [get_packet_from_buffer]
    rw [if_pos hmt, habs, if_pos hmt]
  · rw [if_neg hmt] at habs
    simp only [get_packet_from_buffer]
    rw [if_neg hmt, habs, if_neg hmt]

/-- Witness for `C6_unknown_triple`: technology id 2 is not a key of the
commands table. -/
theorem C6_unknown_triple_witness :
    lookup3 (if ((0x10 : Nat) &&& 0x80) >>> 7 = 0 then commands else events)
        (((0x10 : Nat) &&& 0x78) >>> 3) 0 0 = none ∧
      get_packet_from_buffer commands events [0x10, 0, 0, 0] false =
        ⟨commands, events, .err (.unknownPacketDefinition
          (if ((0x10 : Nat) &&& 0x80) >>> 7 = 0 then decodedPacketType 0 false else 2)
          (((0x10 : Nat) &&& 0x78) >>> 3) 0 0)⟩ :=
  ⟨by decide, C6_unknown_triple commands events 0x10 0 0 0 [] false (by decide)⟩

/-- C7: encoding `ble_cmd_system_hello` with no arguments yields exactly the
4-byte buffer `00 00 00 01` with empty payload, and decoding that buffer in
receive direction yields the response packet named `ble_rsp_system_hello`. -/
theorem C7_hello_scenario :
    (get_packet_from_name_and_args commands events (str "ble_cmd_system_hello") []).result
        = .ok ⟨0, str "ble_cmd_system_hello", ⟨0, 0, 0, 1⟩, [0, 0, 0, 1], []⟩ ∧
      (get_packet_from_buffer commands events [0, 0, 0, 1] false).result
        = .ok ⟨1, str "ble_rsp_system_hello", ⟨0, 0, 0, 1⟩, [0, 0, 0, 1], []⟩ := by
  exact ⟨rfl, rfl⟩

/-- C9 counterexample: one successful decode call mutates the commands table
(the matched method definition gains a `header_args` entry), so the registry
is not identical before and after the call. -/
theorem C9_registry_mutated :
    (get_packet_from_buffer commands events [0, 0, 0, 1] false).commands ≠ commands := by
  decide

/-- Stashing `header_args` in one method leaves the erased methods list
unchanged. -/
theorem eraseMethods_upd (ms : List (Nat × MethodDef)) (mid : Nat) :
    (ms.map fun me => if me.1 = mid then (me.1, setHA me.2) else me).map
        (fun me => (me.1, eraseHA_MD me.2)) =
      ms.map fun me => (me.1, eraseHA_MD me.2) := by
  induction ms with
  | nil => rfl
  | cons m rest ih =>
    simp only [List.map_cons, ih]
    by_cases h : m.1 = mid
    · rw [if_pos h]
      exact rfl
    · rw [if_neg h]

/-- Stashing `header_args` in one method of one group leaves the erased
groups list unchanged. -/
theorem eraseGroups_upd (gs : List (Nat × GroupDef)) (gid mid : Nat) :
    ((gs.map fun ge => if ge.1 = gid then
        (ge.1, { ge.2 with methods := ge.2.methods.map fun me =>
          if me.1 = mid then (me.1, setHA me.2) else me })
      else ge).map fun ge => (ge.1, eraseHA_G ge.2)) =
      gs.map fun ge => (ge.1, eraseHA_G ge.2) := by
  induction gs with
  | nil => rfl
  | cons g rest ih =>
    simp only [List.map_cons, ih]
    by_cases h : g.1 = gid
    · rw [if_pos h]
      congr 1
      dsimp only
      unfold eraseHA_G
      dsimp only
      rw [eraseMethods_upd]
    · rw [if_neg h]

/-- Stashing `header_args` along one path leaves the erased table unchanged. -/
theorem eraseHA_updTable (t : Table) (tt gid mid : Nat) :
    eraseHA (updTable t tt gid mid setHA) = eraseHA t := by
  unfold eraseHA updTable
  induction t with
  | nil => rfl
  | cons e rest ih =>
    simp only [List.map_cons, ih]
    by_cases h : e.1 = tt
    · rw [if_pos h]
      congr 1
      dsimp only
      unfold eraseHA_T
      dsimp only
      rw [eraseGroups_upd]
    · rw [if_neg h]

/-- Decoding never changes the commands table beyond `header_args` entries. -/
theorem decode_commands_erased (c e : Table) (buffer : List Nat) (is_tx : Bool) :
    eraseHA (get_packet_from_buffer c e buffer is_tx).commands = eraseHA c := by
  rcases buffer with _ | ⟨b0, _ | ⟨b1, _ | ⟨b2, _ | ⟨b3, rest⟩⟩⟩⟩
  · rfl
  · rfl
  · rfl
  · rfl
  · simp only [get_packet_from_buffer]
    by_cases hmt : (b0 &&& 0x80) >>> 7 = 0
    · rw [if_pos hmt]
      cases hl : lookup3 c ((b0 &&& 0x78) >>> 3) b2 b3 with
      | none => rfl
      | some v =>
        obtain ⟨tech, g, d⟩ := v
        exact eraseHA_updTable c _ b2 b3
    · rw [if_neg hmt]
      cases hl : lookup3 e ((b0 &&& 0x78) >>> 3) b2 b3 with
      | none => rfl
      | some v =>
        obtain ⟨tech, g, d⟩ := v
        rfl

/-- Decoding never changes the events table beyond `header_args` entries. -/
theorem decode_events_erased (c e : Table) (buffer : List Nat) (is_tx : Bool) :
    eraseHA (get_packet_from_buffer c e buffer is_tx).events = eraseHA e := by
  rcases buffer with _ | ⟨b0, _ | ⟨b1, _ | ⟨b2, _ | ⟨b3, rest⟩⟩⟩⟩
  · rfl
  · rfl
  · rfl
  · rfl
  · simp only [get_packet_from_buffer]
    by_cases hmt : (b0 &&& 0x80) >>> 7 = 0
    · rw [if_pos hmt]
      cases hl : lookup3 c ((b0 &&& 0x78) >>> 3) b2 b3 with
      | none => rfl
      | some v =>
        obtain ⟨tech, g, d⟩ := v
        rfl
    · rw [if_neg hmt]
      cases hl : lookup3 e ((b0 &&& 0x78) >>> 3) b2 b3 with
      | none => rfl
      | some v =>
        obtain ⟨tech, g, d⟩ := v
        exact eraseHA_updTable e _ b2 b3

/-- Encoding never changes the commands table beyond `header_args` entries. -/
theorem encode_commands_erased (c e : Table) (name : List Char)
    (kwargs : List (List Char × FieldValue)) :
    eraseHA (get_packet_from_name_and_args c e name kwargs).commands = eraseHA c := by
  unfold get_packet_from_name_and_args
  cases hr : resolveName c e name with
  | error er => rfl
  | ok v =>
    obtain ⟨pt, mt, tt, gid, mid, d⟩ := v
    dsimp only
    by_cases hmt : mt = 0
    · rw [if_pos hmt]
      exact eraseHA_updTable c tt gid mid
    · rw [if_neg hmt]

/-- Encoding never changes the events table beyond `header_args` entries. -/
theorem encode_events_erased (c e : Table) (name : List Char)
    (kwargs : List (List Char × FieldValue)) :
    eraseHA (get_packet_from_name_and_args c e name kwargs).events = eraseHA e := by
  unfold get_packet_from_name_and_args
  cases hr : resolveName c e name with
  | error er => rfl
  | ok v =>
    obtain ⟨pt, mt, tt, gid, mid, d⟩ := v
    dsimp only
    by_cases hmt : mt = 0
    · rw [if_pos hmt]
    · rw [if_neg hmt]
      exact eraseHA_updTable e tt gid mid

/-- C9 as amended: the only mutation either call performs on the registry is
stashing the shared `header_args` schema into the matched method definition;
after forgetting `header_args` entries, both tables are unchanged by every
call to `get_packet_from_buffer` and `get_packet_from_name_and_args`. -/
theorem C9_mutation_only_header_args :
    (∀ (c e : Table) (buffer : List Nat) (is_tx : Bool),
      eraseHA (get_packet_from_buffer c e buffer is_tx).commands = eraseHA c ∧
      eraseHA (get_packet_from_buffer c e buffer is_tx).events = eraseHA e) ∧
    (∀ (c e : Table) (name : List Char) (kwargs : List (List Char × FieldValue)),
      eraseHA (get_packet_from_name_and_args c e name kwargs).commands = eraseHA c ∧
      eraseHA (get_packet_from_name_and_args c e name kwargs).events = eraseHA e) :=
  ⟨fun c e buffer is_tx =>
    ⟨decode_commands_erased c e buffer is_tx, decode_events_erased c e buffer is_tx⟩,
   fun c e name kwargs =>
    ⟨encode_commands_erased c e name kwargs, encode_events_erased c e name kwargs⟩⟩

/-- Splitting at the first separator after a separator-free first component. -/
theorem splitFirst_of_not_mem (l r : List Char) (h : '_' ∉ l) :
    splitFirst '_' (l ++ '_' :: r) = some (l, r) := by
  induction l with
  | nil => simp [splitFirst]
  | cons c cs ih =>
    simp only [List.mem_cons, not_or] at h
    obtain ⟨h1, h2⟩ := h
    simp only [List.cons_append, splitFirst]
    rw [if_neg (fun hc => h1 hc.symm)]
    simp only [List.append_eq]
    rw [ih h2]

/-- One unfolding step of the bounded split. -/
theorem pySplit_succ (sep : Char) (n : Nat) (s : List Char) :
    pySplit sep (n + 1) s =
      match splitFirst sep s with
      | none => [s]
      | some (pre, post) => pre :: pySplit sep n post := rfl

/-- A packet built from keyword arguments carries exactly the packet type it
was built with. -/
theorem buildPacket_ok_ptype (pt : Nat) (pname : List Char) (d : MethodDef)
    (kwargs : List (List Char × FieldValue)) (md : PacketMetadata) (p : Packet)
    (h : buildPacket pt pname d kwargs md = .ok p) : p.ptype = pt := by
  unfold buildPacket at h
  cases hc : argContext pt d with
  | none =>
    rw [hc] at h
    exact Res.noConfusion h
  | some ctx =>
    rw [hc] at h
    dsimp only at h
    by_cases hv : validArgs ctx kwargs
    · rw [if_pos hv] at h
      cases hp : prepare_buffer_after_building md (encodePayload ctx kwargs) with
      | none =>
        rw [hp] at h
        exact Res.noConfusion h
      | some buf =>
        rw [hp] at h
        dsimp only at h
        injection h with h1
        rw [← h1]
    · rw [if_neg hv] at h
      exact Res.noConfusion h

/-- C10: for every pair of tables, every name whose kind token (the second
underscore-separated component of the split) is any string other than `evt`
and `rsp` — `cmd` or not — and every keyword-argument list,
`get_packet_from_name_and_args` searches the commands table, and whenever the
technology, group and method match there, it returns the Command-typed
construction for the matched triple (stashing `header_args` along the way)
rather than rejecting the name; in particular any packet it returns has
packet type `TYPE_COMMAND = 0`. -/
theorem C10_other_tokens_resolve_as_commands (c e : Table) (name : List Char)
    (kwargs : List (List Char × FieldValue))
    (techStr kindStr short : List Char) (tt gid mid : Nat) (d : MethodDef)
    (hsplit : pySplit '_' 2 name = [techStr, kindStr, short])
    (hevt : kindStr ≠ str "evt") (hrsp : kindStr ≠ str "rsp")
    (hmatch : searchTechs c techStr short = some (tt, gid, mid, d)) :
    get_packet_from_name_and_args c e name kwargs =
      ⟨updTable c tt gid mid setHA, e,
        buildPacket 0 name (setHA d) kwargs ⟨0, tt, gid, mid⟩⟩ ∧
    ∀ p, (get_packet_from_name_and_args c e name kwargs).result = .ok p → p.ptype = 0 := by
  have hres : resolveName c e name = .ok (0, 0, tt, gid, mid, d) := by
    unfold resolveName
    rw [hsplit]
    dsimp only
    rw [if_neg hevt, hmatch]
    dsimp only
    rw [if_neg hrsp]
  have heq : get_packet_from_name_and_args c e name kwargs =
      ⟨updTable c tt gid mid setHA, e,
        buildPacket 0 name (setHA d) kwargs ⟨0, tt, gid, mid⟩⟩ := by
    unfold get_packet_from_name_and_args
    rw [hres]
    exact rfl
  refine ⟨heq, ?_⟩
  intro p hp
  rw [heq] at hp
  exact buildPacket_ok_ptype 0 name (setHA d) kwargs ⟨0, tt, gid, mid⟩ p hp

/-- Witness for `C10_other_tokens_resolve_as_commands`: the non-`cmd` token
`xyz` in `ble_xyz_system_hello` still matches the ble/system/hello command. -/
theorem C10_other_tokens_witness :
    pySplit '_' 2 (str "ble_xyz_system_hello")
        = [str "ble", str "xyz", str "system_hello"] ∧
      str "xyz" ≠ str "evt" ∧ str "xyz" ≠ str "rsp" ∧
      searchTechs commands (str "ble") (str "system_hello")
        = some (0, 0, 1, bleSystemHelloDef) ∧
      (get_packet_from_name_and_args commands events (str "ble_xyz_system_hello") [] =
          ⟨updTable commands 0 0 1 setHA, events,
            buildPacket 0 (str "ble_xyz_system_hello") (setHA bleSystemHelloDef) []
              ⟨0, 0, 0, 1⟩⟩ ∧
        ∀ p, (get_packet_from_name_and_args commands events
            (str "ble_xyz_system_hello") []).result = .ok p → p.ptype = 0) :=
  ⟨by decide, by decide, by decide, by decide,
    C10_other_tokens_resolve_as_commands commands events (str "ble_xyz_system_hello") []
      (str "ble") (str "xyz") (str "system_hello") 0 0 1 bleSystemHelloDef
      (by decide) (by decide) (by decide) (by decide)⟩

/-- C8 counterexample: the name `dumo_cmd_systemXhello` — where the group
name `system` is followed by `X`, not an underscore — still resolves: the
code skips the character after the group-name prefix without checking it, so
the call succeeds with the `dumo`/`system`/`hello` command instead of failing
with UnknownPacketName. -/
theorem C8_skipped_separator_not_checked :
    (get_packet_from_name_and_args commands events (str "dumo_cmd_systemXhello") []).result =
      .ok ⟨0, str "dumo_cmd_systemXhello", ⟨0, 4, 1, 0⟩, [32, 0, 1, 0], []⟩ := by
  exact rfl

/-- The method loop agrees with its spec transcription. -/
theorem searchMethods_eq_spec (ms : List (Nat × MethodDef)) (mname : List Char) :
    searchMethods ms mname = specFindMethod ms mname := by
  induction ms with
  | nil => rfl
  | cons m rest ih =>
    obtain ⟨mid, d⟩ := m
    simp only [searchMethods, specFindMethod, List.findSome?_cons]
    by_cases h : d.name = mname
    · rw [if_pos h, if_pos h]
    · rw [if_neg h, if_neg h]
      exact ih

/-- The group loop agrees with its spec transcription. -/
theorem searchGroups_eq_spec (gs : List (Nat × GroupDef)) (short : List Char) :
    searchGroups gs short = specFindGroup gs short := by
  induction gs with
  | nil => rfl
  | cons g rest ih =>
    obtain ⟨gid, gd⟩ := g
    simp only [searchGroups, specFindGroup, List.findSome?_cons]
    by_cases h : gd.name = short.take gd.name.length
    · rw [if_pos h, if_pos h]
      rw [searchMethods_eq_spec]
      cases hm : specFindMethod gd.methods (short.drop (gd.name.length + 1)) with
      | none =>
        simp only [Option.map_none]
        exact ih
      | some md => rfl
    · rw [if_neg h, if_neg h]
      exact ih

/-- The technology loop agrees with its spec transcription. -/
theorem searchTechs_eq_spec (table : Table) (techStr short : List Char) :
    searchTechs table techStr short = specFindTech table techStr short := by
  induction table with
  | nil => rfl
  | cons e rest ih =>
    obtain ⟨tt, tech⟩ := e
    simp only [searchTechs, specFindTech, List.findSome?_cons]
    by_cases h : tech.name = techStr
    · rw [if_pos h, if_pos h]
      rw [searchGroups_eq_spec]
      cases hg : specFindGroup tech.groups short with
      | none =>
        simp only [Option.map_none]
        exact ih
      | some r =>
        obtain ⟨gid, mid, gd, md⟩ := r
        rfl
    · rw [if_neg h, if_neg h]
      exact ih

/-- C8 as amended: name resolution splits off technology and kind token on
the first two underscores (names without two underscores fail as invalid);
the matched technology's groups are scanned for one whose name is a prefix of
the remainder, the character immediately after the prefix is skipped without
being checked, and the text after it is matched exactly against the group's
method names; when no technology/group/method matches, resolution fails with
the unknown-packet-name exception. -/
theorem C8_resolution_follows_skip_grammar (c e : Table) (name : List Char) :
    resolveName c e name =
      match pySplit '_' 2 name with
      | [techStr, kindStr, short] =>
        if kindStr = str "evt" then
          match specFindTech e techStr short with
          | some (tt, gid, mid, d) => .ok (2, 1, tt, gid, mid, d)
          | none => .error (.unknownPacketName name)
        else
          match specFindTech c techStr short with
          | some (tt, gid, mid, d) =>
            .ok (if kindStr = str "rsp" then 1 else 0, 0, tt, gid, mid, d)
          | none => .error (.unknownPacketName name)
      | _ => .error (.invalidPacketName name) := by
  unfold resolveName
  simp only [searchTechs_eq_spec]

